import Mathlib

/-!
# Verification of the document-comparison engine (`src/utils/textComparison.ts`)

A shallow embedding of the repository's document-comparison module and proofs
about it. The module has two entry points:

* `compareDocuments` — plain-text word-level comparison (the spec's
  `compareText`);
* `compareHtmlDocuments` — structural + word-level comparison of two HTML
  documents.

Two capabilities the module consumes are external collaborators per the spec
(§1, §6): the word-level longest-common-subsequence diff (npm package `diff`,
`diffWords`) and the browser DOM tree access (parse / query / serialize).
Those two are modelled from the spec's words; everything else is translated
from the TypeScript source. JavaScript strings are modelled as Lean `String`,
JavaScript numbers that only ever hold small non-negative integers as `Nat`.

All recursive functions are structurally recursive (with explicit fuel where
the source recursion is not structural), so every definition evaluates by
kernel reduction on concrete inputs.
-/

namespace DocCompare

/-! ## The word-diff primitive, modelled from the spec

Spec §2/§6: an external "longest-common-subsequence diff" capability: given
two ordered sequences of tokens, returns a sequence of {kept, inserted,
removed} runs. §4.3: word tokens are the edit unit; §3 (`DiffSpan`):
concatenating a side's runs excluding the opposite side's exclusive runs
reproduces that side's text exactly. -/

/-- The run kinds of the external diff primitive (jsdiff parts carry
`added`/`removed` flags; a part with neither flag is a kept run). -/
inductive DiffKind where
  | kept
  | inserted
  | removed
deriving DecidableEq, Repr

/-- One run of the external diff primitive's output (jsdiff's
`{value, added?, removed?}` change object). -/
structure DiffPart where
  kind : DiffKind
  value : String
deriving DecidableEq, Repr

/-- Prepend a character to a token-run list: it joins the first run when both
are whitespace or both are not, and starts a new run otherwise. -/
def pushRun (c : Char) : List (List Char) → List (List Char)
  | [] => [[c]]
  | [] :: ts => [c] :: ts
  | (d :: t) :: ts =>
    if c.isWhitespace = d.isWhitespace then (c :: d :: t) :: ts
    else [c] :: (d :: t) :: ts

/-- Modelled from the spec (§4.3 Token Sequencer): split a character list into
maximal runs of whitespace / non-whitespace characters, the word tokens of the
word-level diff. Concatenating the tokens restores the input exactly. -/
def tokenizeChars : List Char → List (List Char)
  | [] => []
  | c :: cs => pushRun c (tokenizeChars cs)

/-- Word tokens of a string (see `tokenizeChars`). -/
def tokenizeWords (s : String) : List String :=
  (tokenizeChars s.data).map fun cs => ⟨cs⟩

/-- Concatenation of a list of strings. -/
def sconcat : List String → String
  | [] => ""
  | s :: l => s ++ sconcat l

/-- Length of a longest common subsequence of two token lists, with explicit
fuel so that the definition is structurally recursive and kernel-reducible.
`fuel ≥ length of both lists combined` is always enough. -/
def lcsLen : Nat → List String → List String → Nat
  | 0, _, _ => 0
  | _ + 1, [], _ => 0
  | _ + 1, _ :: _, [] => 0
  | f + 1, a :: l, b :: r =>
    if a = b then lcsLen f l r + 1
    else max (lcsLen f (a :: l) r) (lcsLen f l (b :: r))

/-- Modelled from the spec (§4.3, §6): an LCS alignment of two token lists as
ordered kept/inserted/removed runs, one token per part (adjacent runs are
merged afterwards by `mergeParts`). Fuel as in `lcsLen`. -/
def diffTokensF : Nat → List String → List String → List DiffPart
  | 0, _, _ => []
  | _ + 1, [], [] => []
  | f + 1, [], b :: r => ⟨.inserted, b⟩ :: diffTokensF f [] r
  | f + 1, a :: l, [] => ⟨.removed, a⟩ :: diffTokensF f l []
  | f + 1, a :: l, b :: r =>
    if a = b then ⟨.kept, a⟩ :: diffTokensF f l r
    else if lcsLen f (a :: l) r ≤ lcsLen f l (b :: r) then
      ⟨.removed, a⟩ :: diffTokensF f l (b :: r)
    else ⟨.inserted, b⟩ :: diffTokensF f (a :: l) r

/-- Merge adjacent runs of the same kind into one run (jsdiff returns maximal
runs, not single-token parts). -/
def mergeParts : List DiffPart → List DiffPart
  | [] => []
  | p :: ps =>
    match mergeParts ps with
    | [] => [p]
    | q :: qs =>
      if p.kind = q.kind then ⟨p.kind, p.value ++ q.value⟩ :: qs
      else p :: q :: qs

/-- Modelled from the spec: the external `diffWords` primitive (npm `diff`):
tokenize both strings into word tokens, align them by a
longest-common-subsequence diff, and return the merged kept/inserted/removed
runs in order. -/
def diffWords (leftText rightText : String) : List DiffPart :=
  let lt := tokenizeWords leftText
  let rt := tokenizeWords rightText
  mergeParts (diffTokensF (lt.length + rt.length) lt rt)

/-! ## The module's result types (`src/types`, used in textComparison.ts) -/

/-- `DiffResult.type` values. -/
inductive DiffType where
  | equal
  | insert
  | delete
deriving DecidableEq, Repr

/-- `DiffResult`: `{ type: 'equal' | 'insert' | 'delete', content: string }`. -/
structure DiffResult where
  type : DiffType
  content : String
deriving DecidableEq, Repr

/-- The summary record `{ additions, deletions, changes }`. -/
structure ComparisonSummary where
  additions : Nat
  deletions : Nat
  changes : Nat
deriving DecidableEq, Repr

/-- `ComparisonResult`: the value both entry points return. -/
structure ComparisonResult where
  leftDiffs : List DiffResult
  rightDiffs : List DiffResult
  summary : ComparisonSummary
deriving DecidableEq, Repr

/-! ## `compareDocuments` (textComparison.ts lines 4-28) -/

/-- The `diffs.forEach` loop of `compareDocuments` (lines 12-23), rendered as
a recursion that builds the two diff lists and the addition/deletion counters
in iteration order: an added part is pushed on `rightDiffs` as `insert`, a
removed part on `leftDiffs` as `delete`, any other part on both sides as
`equal`. Result: (leftDiffs, rightDiffs, additions, deletions). -/
def splitDiffs : List DiffPart → List DiffResult × List DiffResult × Nat × Nat
  | [] => ([], [], 0, 0)
  | p :: ps =>
    let rest := splitDiffs ps
    match p.kind with
    | .inserted => (rest.1, ⟨.insert, p.value⟩ :: rest.2.1, rest.2.2.1 + 1, rest.2.2.2)
    | .removed => (⟨.delete, p.value⟩ :: rest.1, rest.2.1, rest.2.2.1, rest.2.2.2 + 1)
    | .kept =>
      (⟨.equal, p.value⟩ :: rest.1, ⟨.equal, p.value⟩ :: rest.2.1, rest.2.2.1, rest.2.2.2)

/-- `compareDocuments` (lines 4-28): word-diff the two texts, split the runs
per side, and set `summary.changes = additions + deletions` at the end. -/
def compareDocuments (leftText rightText : String) : ComparisonResult :=
  let r := splitDiffs (diffWords leftText rightText)
  { leftDiffs := r.1
    rightDiffs := r.2.1
    summary := { additions := r.2.2.1, deletions := r.2.2.2, changes := r.2.2.1 + r.2.2.2 } }

/-- Concatenation of the `content` fields of a diff-result list. -/
def concatContents : List DiffResult → String
  | [] => ""
  | d :: ds => d.content ++ concatContents ds

/-- Concatenation of the values of the kept and removed runs (the left side's
text projection of a diff). -/
def keptRemovedText : List DiffPart → String
  | [] => ""
  | p :: ps => (if p.kind = .inserted then "" else p.value) ++ keptRemovedText ps

/-- Concatenation of the values of the kept and inserted runs (the right
side's text projection of a diff). -/
def keptInsertedText : List DiffPart → String
  | [] => ""
  | p :: ps => (if p.kind = .removed then "" else p.value) ++ keptInsertedText ps

/-! ## The document tree, modelled from the spec

Spec §1, §9: parsing markup into a navigable tree, querying it and
serializing it back is an external "tree access" capability (the browser DOM
in the original). `Node`/`NodeList` is that capability's tree; the child list
is a mutual inductive so every tree function below is structurally recursive
and kernel-reducible. -/

mutual
/-- A tree node: a text run, or an element with tag name, attribute list and
children. -/
inductive Node where
  | text : String → Node
  | elem : (tag : String) → (attrs : List (String × String)) → (children : NodeList) → Node
/-- A list of sibling nodes. -/
inductive NodeList where
  | nil : NodeList
  | cons : Node → NodeList → NodeList
end

/-- Concatenation of two sibling lists. -/
def NodeList.append : NodeList → NodeList → NodeList
  | .nil, ms => ms
  | .cons n ns, ms => .cons n (ns.append ms)

/-- The tag of a node (`""` for a text node). -/
def nodeTag : Node → String
  | .text _ => ""
  | .elem t _ _ => t

/-- The attribute list of a node (`[]` for a text node). -/
def nodeAttrs : Node → List (String × String)
  | .text _ => []
  | .elem _ a _ => a

/-- The children of a node (`.nil` for a text node). -/
def nodeChildren : Node → NodeList
  | .text _ => .nil
  | .elem _ _ cs => cs

/-- First value of an attribute in an attribute list. -/
def getAttr : List (String × String) → String → Option String
  | [], _ => none
  | (n, v) :: rest, name => if n = name then some v else getAttr rest name

/-- An attribute's value, defaulting to the empty string when absent (the DOM
reflected-property reads `img.src`, `img.alt || ''`, … of the source all
yield `""` for an absent attribute). -/
def attrOr (attrs : List (String × String)) (name : String) : String :=
  (getAttr attrs name).getD ""

/-- Tags the serializer and parser treat as void (no children, no closing
tag); the source's documents only ever use `img` and `br` among these. -/
def isVoidTag (t : String) : Bool :=
  t = "img" || t = "br" || t = "hr" || t = "meta" || t = "input"

/-- Characters permitted in a tag name. -/
def isTagChar (c : Char) : Bool :=
  c.isAlpha || c.isDigit

/-- Characters permitted in an attribute name. -/
def isAttrNameChar (c : Char) : Bool :=
  !(c.isWhitespace || c = '=' || c = '>' || c = '/' || c = '"' || c = '\'')

/-- Modelled from the spec (§9: `parse(markup) -> Tree`, external capability):
parse the attribute region of an opening tag, consuming through the closing
`>` (or `/>`). Returns the attributes and the remaining input. Fuel keeps the
recursion structural; `length + 1` is always enough. -/
def parseAttrs : Nat → List Char → List (String × String) × List Char
  | 0, cs => ([], cs)
  | _ + 1, [] => ([], [])
  | f + 1, c :: cs =>
    if c.isWhitespace then parseAttrs f cs
    else if c = '>' then ([], cs)
    else if c = '/' then parseAttrs f cs
    else
      let name := (c :: cs).takeWhile isAttrNameChar
      if name.isEmpty then parseAttrs f cs
      else
        let rest1 := (c :: cs).dropWhile isAttrNameChar
        match rest1 with
        | '=' :: '"' :: rest2 =>
          let value := rest2.takeWhile fun d => d ≠ '"'
          let rest3 := (rest2.dropWhile fun d => d ≠ '"').drop 1
          let r := parseAttrs f rest3
          ((⟨name⟩, (⟨value⟩ : String)) :: r.1, r.2)
        | '=' :: '\'' :: rest2 =>
          let value := rest2.takeWhile fun d => d ≠ '\''
          let rest3 := (rest2.dropWhile fun d => d ≠ '\'').drop 1
          let r := parseAttrs f rest3
          ((⟨name⟩, (⟨value⟩ : String)) :: r.1, r.2)
        | '=' :: rest2 =>
          let value := rest2.takeWhile fun d => !(d.isWhitespace || d = '>')
          let rest3 := rest2.dropWhile fun d => !(d.isWhitespace || d = '>')
          let r := parseAttrs f rest3
          ((⟨name⟩, (⟨value⟩ : String)) :: r.1, r.2)
        | rest2 =>
          let r := parseAttrs f rest2
          ((⟨name⟩, "") :: r.1, r.2)

/-- Skip a closing tag (`</tag>`) at the head of the input, if present. -/
def consumeCloseTag (cs : List Char) : List Char :=
  match cs with
  | '<' :: '/' :: rest => (rest.dropWhile fun d => d ≠ '>').drop 1
  | _ => cs

/-- Modelled from the spec (§9, external capability): recursive-descent parse
of well-formed markup into sibling nodes. Stops in front of a closing tag
(the caller consumes it). Fuel keeps the recursion structural;
`length + 1` is always enough for inputs the model is used on. -/
def parseNodesF : Nat → List Char → NodeList × List Char
  | 0, cs => (.nil, cs)
  | _ + 1, [] => (.nil, [])
  | _ + 1, '<' :: '/' :: cs => (.nil, '<' :: '/' :: cs)
  | f + 1, '<' :: cs =>
    let tag := cs.takeWhile isTagChar
    if tag.isEmpty then
      let r := parseNodesF f cs
      (.cons (.text "<") r.1, r.2)
    else
      let afterTag := cs.drop tag.length
      let a := parseAttrs (afterTag.length + 1) afterTag
      let tagStr : String := ⟨tag⟩
      if isVoidTag tagStr then
        let r := parseNodesF f a.2
        (.cons (.elem tagStr a.1 .nil) r.1, r.2)
      else
        let ch := parseNodesF f a.2
        let afterClose := consumeCloseTag ch.2
        let r := parseNodesF f afterClose
        (.cons (.elem tagStr a.1 ch.1) r.1, r.2)
  | f + 1, c :: cs =>
    let txt := c :: cs.takeWhile fun d => d ≠ '<'
    let r := parseNodesF f (cs.dropWhile fun d => d ≠ '<')
    (.cons (.text ⟨txt⟩) r.1, r.2)

/-- Modelled from the spec (§9): the external parse capability
(`tempDiv.innerHTML = html` in the source). -/
def parseHtml (html : String) : NodeList :=
  (parseNodesF (html.data.length + 1) html.data).1

/-- Serialized form of an attribute list (DOM serialization uses
double-quoted values). -/
def serializeAttrs : List (String × String) → String
  | [] => ""
  | (n, v) :: rest => " " ++ n ++ "=\"" ++ v ++ "\"" ++ serializeAttrs rest

mutual
/-- Modelled from the spec (§9): the external serialize capability
(`element.outerHTML` in the source). -/
def serializeNode : Node → String
  | .text s => s
  | .elem t a cs =>
    if isVoidTag t then "<" ++ t ++ serializeAttrs a ++ ">"
    else "<" ++ t ++ serializeAttrs a ++ ">" ++ serializeNodes cs ++ "</" ++ t ++ ">"
/-- Serialized form of a sibling list (`innerHTML`). -/
def serializeNodes : NodeList → String
  | .nil => ""
  | .cons n ns => serializeNode n ++ serializeNodes ns
end

mutual
/-- Modelled from the spec (§9): the external `textContent` capability —
the concatenated text runs of a subtree. -/
def textContentNode : Node → String
  | .text s => s
  | .elem _ _ cs => textContentNodes cs
/-- Concatenated text runs of a sibling list. -/
def textContentNodes : NodeList → String
  | .nil => ""
  | .cons n ns => textContentNode n ++ textContentNodes ns
end

mutual
/-- Modelled from the spec (§9: `query(Tree, predicate) -> Node[]`): all
elements of a subtree satisfying a predicate on tag and attributes, in
document (depth-first, pre-) order — the order `querySelectorAll` returns. -/
def collectNode (p : String → List (String × String) → Bool) : Node → List Node
  | .text _ => []
  | .elem t a cs =>
    (if p t a then [Node.elem t a cs] else []) ++ collectNodes p cs
/-- `collectNode` over a sibling list. -/
def collectNodes (p : String → List (String × String) → Bool) : NodeList → List Node
  | .nil => []
  | .cons n ns => collectNode p n ++ collectNodes p ns
end

/-- Elements whose tag is one of `tags`, in document order
(`querySelectorAll('t1, t2, …')`). -/
def collectTags (tags : List String) (ns : NodeList) : List Node :=
  collectNodes (fun t _ => tags.contains t) ns

mutual
/-- Remove every element whose tag is in `tags`, keeping everything else
(the `querySelectorAll('img, table').forEach(el => el.remove())` step of
`extractTextFromHtml`, lines 375-376). -/
def removeTagsNode (tags : List String) : Node → NodeList
  | .text s => .cons (.text s) .nil
  | .elem t a cs =>
    if tags.contains t then .nil
    else .cons (.elem t a (removeTagsNodes tags cs)) .nil
/-- `removeTagsNode` over a sibling list. -/
def removeTagsNodes (tags : List String) : NodeList → NodeList
  | .nil => .nil
  | .cons n ns => (removeTagsNode tags n).append (removeTagsNodes tags ns)
end

/-- Collapse every whitespace run to a single space
(`text.replace(/\s+/g, ' ')`). -/
def collapseWs : List Char → List Char
  | [] => []
  | c :: cs =>
    let rest := collapseWs cs
    if c.isWhitespace then
      match rest with
      | ' ' :: _ => rest
      | _ => ' ' :: rest
    else c :: rest

/-- Strip leading and trailing whitespace (`String.prototype.trim`). -/
def trimWs (cs : List Char) : List Char :=
  ((cs.dropWhile Char.isWhitespace).reverse.dropWhile Char.isWhitespace).reverse

/-- `text.replace(/\s+/g, ' ').trim()` (line 380). -/
def normalizeWs (s : String) : String :=
  ⟨trimWs (collapseWs s.data)⟩

/-- `extractTextFromHtml` (lines 371-381): parse the markup, remove every
`img` and `table` element, take the remaining text content, collapse
whitespace and trim. -/
def extractTextFromHtml (html : String) : String :=
  normalizeWs (textContentNodes (removeTagsNodes ["img", "table"] (parseHtml html)))

/-! ## `extractAllElements` (lines 79-188)

One record per recognized element kind, mirroring the anonymous objects the
source builds. The source also stores `width`/`height` on images (DOM layout
values, external); they are read from no code path and are omitted. -/

/-- `substring(0, n)` of a JavaScript string. -/
def substrPrefix (s : String) (n : Nat) : String :=
  ⟨s.data.take n⟩

/-- An extracted image (lines 85-94). -/
structure ImageInfo where
  index : Nat
  src : String
  alt : String
  element : String
  id : String
deriving DecidableEq, Repr

/-- An extracted table (lines 97-104). -/
structure TableInfo where
  index : Nat
  rows : Nat
  cols : Nat
  element : String
  id : String
deriving DecidableEq, Repr

/-- An extracted header (lines 107-113). -/
structure HeaderInfo where
  level : Nat
  text : String
  element : String
  id : String
deriving DecidableEq, Repr

/-- An extracted list (lines 116-122). -/
structure ListInfo where
  listType : String
  items : Nat
  element : String
  id : String
deriving DecidableEq, Repr

/-- An extracted link (lines 125-131). -/
structure LinkInfo where
  href : String
  text : String
  element : String
  id : String
deriving DecidableEq, Repr

/-- An extracted blockquote (lines 134-139). -/
structure QuoteInfo where
  text : String
  element : String
  id : String
deriving DecidableEq, Repr

/-- An extracted code block or inline code (lines 142-148). -/
structure CodeInfo where
  isBlock : Bool
  text : String
  element : String
  id : String
deriving DecidableEq, Repr

/-- An extracted bold/italic/underline run (lines 151-157). -/
structure FormattedInfo where
  format : String
  text : String
  element : String
  id : String
deriving DecidableEq, Repr

/-- An extracted line break (lines 160-164). -/
structure BreakInfo where
  element : String
  id : String
deriving DecidableEq, Repr

/-- An extracted styled div/span/p (lines 167-174). -/
structure StyledInfo where
  tagName : String
  style : String
  text : String
  element : String
  id : String
deriving DecidableEq, Repr

/-- The record of all extracted element lists (lines 176-187). -/
structure AllElements where
  images : List ImageInfo
  tables : List TableInfo
  headers : List HeaderInfo
  lists : List ListInfo
  links : List LinkInfo
  blockquotes : List QuoteInfo
  codeBlocks : List CodeInfo
  formattedText : List FormattedInfo
  breaks : List BreakInfo
  styledElements : List StyledInfo
deriving DecidableEq, Repr

/-- `parseInt(tagName.substring(1))` for a heading tag (`"h3"` ↦ 3). -/
def headerLevel (t : String) : Nat :=
  (t.data.drop 1).foldl (fun acc c => acc * 10 + (c.toNat - 48)) 0

/-- `extractAllElements` (lines 79-188): query the parsed document for each
recognized kind, in document order, and record the fields the comparison
reads. -/
def extractAllElements (html : String) : AllElements :=
  let doc := parseHtml html
  { images := (collectTags ["img"] doc).enum.map fun p =>
      let a := nodeAttrs p.2
      let src := attrOr a "src"
      let alt := attrOr a "alt"
      { index := p.1, src := src, alt := alt, element := serializeNode p.2
        id := "img-" ++ toString p.1 ++ "-" ++
          substrPrefix (if src ≠ "" then src else if alt ≠ "" then alt else "") 20 }
    tables := (collectTags ["table"] doc).enum.map fun p =>
      let trs := collectTags ["tr"] (nodeChildren p.2)
      { index := p.1
        rows := trs.length
        cols := match trs.head? with
          | some tr => (collectTags ["td", "th"] (nodeChildren tr)).length
          | none => 0
        element := serializeNode p.2
        id := "table-" ++ toString p.1 ++ "-" ++ substrPrefix (textContentNode p.2) 20 }
    headers := (collectTags ["h1", "h2", "h3", "h4", "h5", "h6"] doc).enum.map fun p =>
      { level := headerLevel (nodeTag p.2)
        text := textContentNode p.2
        element := serializeNode p.2
        id := "header-" ++ toString p.1 ++ "-" ++ substrPrefix (textContentNode p.2) 20 }
    lists := (collectTags ["ul", "ol"] doc).enum.map fun p =>
      { listType := nodeTag p.2
        items := (collectTags ["li"] (nodeChildren p.2)).length
        element := serializeNode p.2
        id := "list-" ++ toString p.1 ++ "-" ++ substrPrefix (textContentNode p.2) 20 }
    links := (collectTags ["a"] doc).enum.map fun p =>
      let txt := textContentNode p.2
      let href := attrOr (nodeAttrs p.2) "href"
      { href := href, text := txt, element := serializeNode p.2
        id := "link-" ++ toString p.1 ++ "-" ++
          substrPrefix (if txt ≠ "" then txt else if href ≠ "" then href else "") 20 }
    blockquotes := (collectTags ["blockquote"] doc).enum.map fun p =>
      { text := textContentNode p.2
        element := serializeNode p.2
        id := "quote-" ++ toString p.1 ++ "-" ++ substrPrefix (textContentNode p.2) 20 }
    codeBlocks := (collectTags ["pre", "code"] doc).enum.map fun p =>
      { isBlock := nodeTag p.2 = "pre"
        text := textContentNode p.2
        element := serializeNode p.2
        id := "code-" ++ toString p.1 ++ "-" ++ substrPrefix (textContentNode p.2) 20 }
    formattedText := (collectTags ["strong", "b", "em", "i", "u"] doc).enum.map fun p =>
      { format := nodeTag p.2
        text := textContentNode p.2
        element := serializeNode p.2
        id := "format-" ++ toString p.1 ++ "-" ++ substrPrefix (textContentNode p.2) 20 }
    breaks := (collectTags ["br"] doc).enum.map fun p =>
      { element := serializeNode p.2, id := "br-" ++ toString p.1 }
    styledElements := (collectNodes
        (fun t a => (t = "div" || t = "span" || t = "p") && (getAttr a "style").isSome)
        doc).enum.map fun p =>
      { tagName := nodeTag p.2
        style := attrOr (nodeAttrs p.2) "style"
        text := textContentNode p.2
        element := serializeNode p.2
        id := "styled-" ++ toString p.1 ++ "-" ++ substrPrefix (textContentNode p.2) 20 } }

/-! ## `elementExistsInOther` (lines 195-242): the marking pass's per-kind
matching rules, one function per `switch` case. -/

/-- Lexicographic order on character lists by code point. -/
def charListLt : List Char → List Char → Bool
  | [], [] => false
  | [], _ :: _ => true
  | _ :: _, [] => false
  | a :: as, b :: bs =>
    if a.toNat < b.toNat then true
    else if b.toNat < a.toNat then false
    else charListLt as bs

/-- `String.prototype.localeCompare` (external, locale-dependent), modelled
as the sign of the lexicographic comparison: -1, 0 or 1. -/
def localeCompare (a b : String) : Int :=
  if a = b then 0 else if charListLt a.data b.data then -1 else 1

/-- Case `'image'` (lines 197-202): same `src`, or same non-empty `alt`, or
identical serialized markup. -/
def imageExistsInOther (e : ImageInfo) (others : List ImageInfo) : Bool :=
  others.any fun other =>
    other.src == e.src || (other.alt == e.alt && e.alt != "") || other.element == e.element

/-- Case `'table'` (lines 203-208): identical serialized markup, or same
row/column counts with `Math.abs(other.id.localeCompare(element.id)) < 5`. -/
def tableExistsInOther (e : TableInfo) (others : List TableInfo) : Bool :=
  others.any fun other =>
    other.element == e.element ||
      (other.rows == e.rows && other.cols == e.cols &&
        (localeCompare other.id e.id).natAbs < 5)

/-- Case `'header'` (lines 209-212): same text and same level. -/
def headerExistsInOther (e : HeaderInfo) (others : List HeaderInfo) : Bool :=
  others.any fun other => other.text == e.text && other.level == e.level

/-- Case `'list'` (lines 213-217). -/
def listExistsInOther (e : ListInfo) (others : List ListInfo) : Bool :=
  others.any fun other =>
    other.element == e.element || (other.listType == e.listType && other.items == e.items)

/-- Case `'link'` (lines 218-221). -/
def linkExistsInOther (e : LinkInfo) (others : List LinkInfo) : Bool :=
  others.any fun other => other.href == e.href && other.text == e.text

/-- Case `'blockquote'` (lines 222-225). -/
def quoteExistsInOther (e : QuoteInfo) (others : List QuoteInfo) : Bool :=
  others.any fun other => other.text == e.text

/-- Case `'code'` (lines 226-229). -/
def codeExistsInOther (e : CodeInfo) (others : List CodeInfo) : Bool :=
  others.any fun other => other.text == e.text && other.isBlock == e.isBlock

/-- Case `'formatted'` (lines 230-233). -/
def formattedExistsInOther (e : FormattedInfo) (others : List FormattedInfo) : Bool :=
  others.any fun other => other.text == e.text && other.format == e.format

/-- Case `'styled'` (lines 234-238). -/
def styledExistsInOther (e : StyledInfo) (others : List StyledInfo) : Bool :=
  others.any fun other =>
    other.element == e.element || (other.style == e.style && other.text == e.text)

/-! ## `applyComprehensiveHighlighting` (lines 190-278) -/

/-- Which side of the comparison a pass works on (`side: 'left' | 'right'`). -/
inductive Side where
  | left
  | right
deriving DecidableEq, Repr

/-- `getElementIcon` (lines 281-295). -/
def getElementIcon (ty : String) : String :=
  if ty = "image" then "🖼️"
  else if ty = "table" then "📊"
  else if ty = "header" then "📝"
  else if ty = "list" then "📋"
  else if ty = "link" then "🔗"
  else if ty = "blockquote" then "💬"
  else if ty = "code" then "💻"
  else if ty = "formatted" then "✨"
  else if ty = "styled" then "🎨"
  else if ty = "break" then "↵"
  else "📄"

/-- `getElementLabel` (lines 298-312). -/
def getElementLabel (ty : String) : String :=
  if ty = "image" then "Image"
  else if ty = "table" then "Table"
  else if ty = "header" then "Header"
  else if ty = "list" then "List"
  else if ty = "link" then "Link"
  else if ty = "blockquote" then "Quote"
  else if ty = "code" then "Code"
  else if ty = "formatted" then "Formatting"
  else if ty = "styled" then "Style"
  else if ty = "break" then "Line Break"
  else "Element"

/-- Replace the first occurrence of `pat` in `s` by `repl`
(`String.prototype.replace` with a string pattern). -/
def replaceFirstChars : List Char → List Char → List Char → List Char
  | [], _, _ => []
  | c :: cs, pat, repl =>
    if pat.isPrefixOf (c :: cs) then repl ++ (c :: cs).drop pat.length
    else c :: replaceFirstChars cs pat repl

/-- String-level `replaceFirstChars`. -/
def replaceFirst (s pat repl : String) : String :=
  ⟨replaceFirstChars s.data pat.data repl.data⟩

/-- The removal wrapper of the marking pass (lines 260-263), with the
template literal's exact whitespace. -/
def removedBlockHtml (ty elementHtml : String) : String :=
  "<div class=\"diff-delete-block\">\n            <div class=\"removed-element-label\">" ++
    getElementIcon ty ++ " " ++ getElementLabel ty ++ " Removed</div>\n            " ++
    elementHtml ++ "\n          </div>"

/-- The addition wrapper of the marking pass (lines 267-270). -/
def insertedBlockHtml (ty elementHtml : String) : String :=
  "<div class=\"diff-insert-block\">\n            <div class=\"added-element-label\">" ++
    getElementIcon ty ++ " " ++ getElementLabel ty ++ " Added</div>\n            " ++
    elementHtml ++ "\n          </div>"

/-- The inner loop of `applyComprehensiveHighlighting` (lines 251-274) for
one element kind: each element of this side that does not exist in the other
document has its first occurrence in the accumulated markup replaced by the
wrapped version. `els` carries each element's serialized markup paired with
its `elementExistsInOther` result, in document order. -/
def markElements (html : String) (ty : String) (side : Side)
    (els : List (String × Bool)) : String :=
  els.foldl
    (fun h e =>
      if e.2 then h
      else
        match side with
        | .left => replaceFirst h e.1 (removedBlockHtml ty e.1)
        | .right => replaceFirst h e.1 (insertedBlockHtml ty e.1))
    html

/-- `applyComprehensiveHighlighting` (lines 190-278): process the element
kinds in the source's `elementTypes` order (images, tables, headers, lists,
links, blockquotes, codeBlocks, formattedText, styledElements — `breaks` is
not in that list), wrapping every unmatched element. -/
def applyComprehensiveHighlighting (html : String) (own other : AllElements)
    (side : Side) : String :=
  let h1 := markElements html "image" side
    (own.images.map fun e => (e.element, imageExistsInOther e other.images))
  let h2 := markElements h1 "table" side
    (own.tables.map fun e => (e.element, tableExistsInOther e other.tables))
  let h3 := markElements h2 "header" side
    (own.headers.map fun e => (e.element, headerExistsInOther e other.headers))
  let h4 := markElements h3 "list" side
    (own.lists.map fun e => (e.element, listExistsInOther e other.lists))
  let h5 := markElements h4 "link" side
    (own.links.map fun e => (e.element, linkExistsInOther e other.links))
  let h6 := markElements h5 "blockquote" side
    (own.blockquotes.map fun e => (e.element, quoteExistsInOther e other.blockquotes))
  let h7 := markElements h6 "code" side
    (own.codeBlocks.map fun e => (e.element, codeExistsInOther e other.codeBlocks))
  let h8 := markElements h7 "formatted" side
    (own.formattedText.map fun e => (e.element, formattedExistsInOther e other.formattedText))
  markElements h8 "styled" side
    (own.styledElements.map fun e => (e.element, styledExistsInOther e other.styledElements))

/-! ## `calculateComprehensiveSummary` (lines 314-368) -/

/-- The summary pass's `'image'` case (lines 335-336 and 352-353): same
`src` or same `alt` — the `alt` may be empty and the serialized markup is
not consulted, unlike the marking pass. -/
def imageMatchesInSummary (e other : ImageInfo) : Bool :=
  other.src == e.src || other.alt == e.alt

/-- The summary pass's `'header'` case (lines 337-338 and 354-355). -/
def headerMatchesInSummary (e other : HeaderInfo) : Bool :=
  other.text == e.text && other.level == e.level

/-- The summary pass's `'link'` case (lines 339-340 and 356-357). -/
def linkMatchesInSummary (e other : LinkInfo) : Bool :=
  other.href == e.href && other.text == e.text

/-- The summary pass's `default` case (lines 341-342 and 358-359): identical
serialized markup — used for tables, lists, blockquotes, code, formatted and
styled elements. -/
def tableMatchesInSummary (e other : TableInfo) : Bool :=
  other.element == e.element

/-- Elements of `own` with no match in `others` (the
`forEach`/`some`/`if (!exists…) summary.…++` counting loops). -/
def countUnmatched {α : Type} (own others : List α) (matchFn : α → α → Bool) : Nat :=
  own.countP fun e => !(others.any fun other => matchFn e other)

/-- `calculateComprehensiveSummary` (lines 314-368): count one addition per
added text run and one deletion per removed text run, then one deletion per
left element with no summary-rule match on the right and one addition per
right element with no summary-rule match on the left, for every kind in
`elementTypes` (breaks excluded); finally `changes = additions + deletions`. -/
def calculateComprehensiveSummary (textDiffs : List DiffPart)
    (leftElements rightElements : AllElements) : ComparisonSummary :=
  let textAdditions := textDiffs.countP fun d => d.kind == .inserted
  let textDeletions := textDiffs.countP fun d => d.kind == .removed
  let structuralDeletions :=
    countUnmatched leftElements.images rightElements.images imageMatchesInSummary +
    countUnmatched leftElements.tables rightElements.tables tableMatchesInSummary +
    countUnmatched leftElements.headers rightElements.headers headerMatchesInSummary +
    countUnmatched leftElements.lists rightElements.lists
      (fun e other => other.element == e.element) +
    countUnmatched leftElements.links rightElements.links linkMatchesInSummary +
    countUnmatched leftElements.blockquotes rightElements.blockquotes
      (fun e other => other.element == e.element) +
    countUnmatched leftElements.codeBlocks rightElements.codeBlocks
      (fun e other => other.element == e.element) +
    countUnmatched leftElements.formattedText rightElements.formattedText
      (fun e other => other.element == e.element) +
    countUnmatched leftElements.styledElements rightElements.styledElements
      (fun e other => other.element == e.element)
  let structuralAdditions :=
    countUnmatched rightElements.images leftElements.images imageMatchesInSummary +
    countUnmatched rightElements.tables leftElements.tables tableMatchesInSummary +
    countUnmatched rightElements.headers leftElements.headers headerMatchesInSummary +
    countUnmatched rightElements.lists leftElements.lists
      (fun e other => other.element == e.element) +
    countUnmatched rightElements.links leftElements.links linkMatchesInSummary +
    countUnmatched rightElements.blockquotes leftElements.blockquotes
      (fun e other => other.element == e.element) +
    countUnmatched rightElements.codeBlocks leftElements.codeBlocks
      (fun e other => other.element == e.element) +
    countUnmatched rightElements.formattedText leftElements.formattedText
      (fun e other => other.element == e.element) +
    countUnmatched rightElements.styledElements leftElements.styledElements
      (fun e other => other.element == e.element)
  let additions := textAdditions + structuralAdditions
  let deletions := textDeletions + structuralDeletions
  { additions := additions, deletions := deletions, changes := additions + deletions }

/-! ## `applyTextDifferencesToHtml` (lines 383-471) and its helpers -/

/-- `escapeHtml` (lines 43-47; the source routes the text through a DOM
node's `textContent`/`innerHTML`, whose serialization escapes the markup
metacharacters). -/
def escapeChar (c : Char) : List Char :=
  if c = '&' then "&amp;".data
  else if c = '<' then "&lt;".data
  else if c = '>' then "&gt;".data
  else [c]

/-- String-level `escapeChar`. -/
def escapeHtml (s : String) : String :=
  ⟨s.data.foldr (fun c acc => escapeChar c ++ acc) []⟩

/-- A `diffSegments` entry's kind (line 402: `'normal' | 'added' | 'removed'`). -/
inductive SegKind where
  | normal
  | added
  | removed
deriving DecidableEq, Repr

/-- A `diffSegments` entry (line 402). -/
structure Segment where
  text : String
  segKind : SegKind
deriving DecidableEq, Repr

/-- The `diffs.forEach` of lines 404-418: this side's segment list — removed
runs (left) or added runs (right) plus the kept runs, opposite-side exclusive
runs skipped. -/
def buildSegments (diffs : List DiffPart) (side : Side) : List Segment :=
  diffs.foldr
    (fun d acc =>
      match side with
      | .left =>
        match d.kind with
        | .removed => ⟨d.value, .removed⟩ :: acc
        | .kept => ⟨d.value, .normal⟩ :: acc
        | .inserted => acc
      | .right =>
        match d.kind with
        | .inserted => ⟨d.value, .added⟩ :: acc
        | .kept => ⟨d.value, .normal⟩ :: acc
        | .removed => acc)
    []

/-- The walk's segment cursor (`segmentIndex`, `segmentOffset`,
lines 421-422). -/
structure WalkState where
  segIndex : Nat
  segOffset : Nat
deriving DecidableEq, Repr

/-- The `while` loop of lines 429-455: consume the text node's characters
against the segment list, wrapping added/removed chunks in inline markers.
Returns the highlighted content built so far, the unconsumed characters of
the node (the loop stops when the segments are exhausted) and the advanced
cursor. Fuel keeps the recursion structural; every iteration consumes a
character or finishes a segment, so `text length + segment count + 1` is
always enough. -/
def processChunks : Nat → List Segment → List Char → WalkState → String × List Char × WalkState
  | 0, _, txt, st => ("", txt, st)
  | f + 1, segs, txt, st =>
    if h : st.segIndex < segs.length then
      match txt with
      | [] => ("", [], st)
      | c :: cs =>
        let seg := segs.get ⟨st.segIndex, h⟩
        let remainingSeg := seg.text.data.length - st.segOffset
        let matchLength := min remainingSeg (c :: cs).length
        let chunk : String := ⟨(c :: cs).take matchLength⟩
        let piece :=
          match seg.segKind with
          | .added => "<span class=\"diff-insert\">" ++ escapeHtml chunk ++ "</span>"
          | .removed => "<span class=\"diff-delete\">" ++ escapeHtml chunk ++ "</span>"
          | .normal => escapeHtml chunk
        let newOffset := st.segOffset + matchLength
        let st' : WalkState :=
          if seg.text.data.length ≤ newOffset then ⟨st.segIndex + 1, 0⟩
          else ⟨st.segIndex, newOffset⟩
        let r := processChunks f segs ((c :: cs).drop matchLength) st'
        (piece ++ r.1, r.2.1, r.2.2)
    else ("", txt, st)

/-- One text node's rewrite (lines 424-460): run the chunk loop, then append
the escaped unconsumed remainder. -/
def processTextNode (segs : List Segment) (nodeText : String) (st : WalkState) :
    String × WalkState :=
  let r := processChunks (nodeText.data.length + segs.length + 1) segs nodeText.data st
  (r.1 ++ escapeHtml ⟨r.2.1⟩, r.2.2)

/-- `closest('.diff-insert-block, .diff-delete-block')`: the class attribute
contains one of the marker classes. -/
def hasDiffBlockClass (attrs : List (String × String)) : Bool :=
  match getAttr attrs "class" with
  | none => false
  | some cls =>
    (cls.splitOn " ").contains "diff-insert-block" ||
      (cls.splitOn " ").contains "diff-delete-block"

mutual
/-- The walk of lines 424-468 over one node. `excluded` tracks whether an
ancestor is an `img`, a `table` or a diff marker block (the
`getAllTextNodes` filter of lines 480-489); a text node that is excluded or
whitespace-only is left alone and does not advance the cursor. A rewritten
text node is replaced by a `span` wrapper whose children are the parsed
highlighted content (lines 462-467), and only when the content changed. -/
def annotateNode (segs : List Segment) (excluded : Bool) :
    Node → WalkState → Node × WalkState
  | .text s, st =>
    if excluded || (trimWs s.data).isEmpty then (.text s, st)
    else
      let r := processTextNode segs s st
      if r.1 == escapeHtml s then (.text s, r.2)
      else (.elem "span" [] (parseHtml r.1), r.2)
  | .elem t a cs, st =>
    let excluded' := excluded || t == "img" || t == "table" || hasDiffBlockClass a
    let r := annotateNodes segs excluded' cs st
    (.elem t a r.1, r.2)
/-- `annotateNode` over a sibling list, threading the cursor left to right
(the `textNodes.forEach` order). -/
def annotateNodes (segs : List Segment) (excluded : Bool) :
    NodeList → WalkState → NodeList × WalkState
  | .nil, st => (.nil, st)
  | .cons n ns, st =>
    let r := annotateNode segs excluded n st
    let r2 := annotateNodes segs excluded ns r.2
    (.cons r.1 r2.1, r2.2)
end

/-- `applyTextDifferencesToHtml` (lines 383-471): if this side has no
exclusive runs, return the markup unchanged (lines 385-392); otherwise parse
it, rewrite its text nodes against the segment list and serialize the result
(`tempDiv.innerHTML`, line 470). -/
def applyTextDifferencesToHtml (originalHtml : String) (diffs : List DiffPart)
    (side : Side) : String :=
  let hasTextChanges := diffs.any fun d =>
    match side with
    | .left => d.kind == .removed
    | .right => d.kind == .inserted
  if !hasTextChanges then originalHtml
  else
    let root := parseHtml originalHtml
    let segs := buildSegments diffs side
    let r := annotateNodes segs false root ⟨0, 0⟩
    serializeNodes r.1

/-! ## `compareHtmlDocuments` (lines 49-77) -/

/-- `compareHtmlDocuments` (lines 49-77): extract both documents' elements,
wrap unmatched elements on each side, word-diff the extracted plain texts,
splice the text differences into each side's highlighted markup, compute the
summary, and return each side as a single `equal` diff result holding the
annotated markup. -/
def compareHtmlDocuments (leftHtml rightHtml : String) : ComparisonResult :=
  let leftElements := extractAllElements leftHtml
  let rightElements := extractAllElements rightHtml
  let leftWithHighlights :=
    applyComprehensiveHighlighting leftHtml leftElements rightElements .left
  let rightWithHighlights :=
    applyComprehensiveHighlighting rightHtml rightElements leftElements .right
  let leftText := extractTextFromHtml leftHtml
  let rightText := extractTextFromHtml rightHtml
  let textDiffs := diffWords leftText rightText
  let leftFinal := applyTextDifferencesToHtml leftWithHighlights textDiffs .left
  let rightFinal := applyTextDifferencesToHtml rightWithHighlights textDiffs .right
  let summary := calculateComprehensiveSummary textDiffs leftElements rightElements
  { leftDiffs := [{ type := .equal, content := leftFinal }]
    rightDiffs := [{ type := .equal, content := rightFinal }]
    summary := summary }

/-- The annotated left markup `compareHtmlDocuments` wraps in its single
`equal` result (lines 55, 66, 73). -/
def leftAnnotatedHtml (leftHtml rightHtml : String) : String :=
  applyTextDifferencesToHtml
    (applyComprehensiveHighlighting leftHtml (extractAllElements leftHtml)
      (extractAllElements rightHtml) .left)
    (diffWords (extractTextFromHtml leftHtml) (extractTextFromHtml rightHtml)) .left

/-- The annotated right markup `compareHtmlDocuments` wraps in its single
`equal` result (lines 56, 67, 74). -/
def rightAnnotatedHtml (leftHtml rightHtml : String) : String :=
  applyTextDifferencesToHtml
    (applyComprehensiveHighlighting rightHtml (extractAllElements rightHtml)
      (extractAllElements leftHtml) .right)
    (diffWords (extractTextFromHtml leftHtml) (extractTextFromHtml rightHtml)) .right

/-! ## The spec's §4.2 equivalence rules, written from the spec's words

These three are the only definitions taken from the spec rather than the
source: the claims compare the code's matching passes against them. -/

/-- Spec §4.2, image row: "same source URI, OR same non-empty alt text, OR
byte-identical serialized markup". -/
def specImageRule (e other : ImageInfo) : Bool :=
  other.src == e.src || (other.alt == e.alt && e.alt != "") || other.element == e.element

/-- Spec §4.2, table row: "byte-identical serialized markup, OR (same row
count AND same first-row column count)". -/
def specTableRule (e other : TableInfo) : Bool :=
  other.element == e.element || (other.rows == e.rows && other.cols == e.cols)

/-- Spec §4.2, header row: "same heading level AND same normalized text"
(normalized per §4.1: whitespace runs collapsed to one space, ends
trimmed). -/
def specHeaderRule (e other : HeaderInfo) : Bool :=
  normalizeWs other.text == normalizeWs e.text && other.level == e.level

/-! # Lemmas

## String algebra -/

theorem str_empty_append (s : String) : "" ++ s = s := by
  apply String.ext
  simp [String.data_append]

theorem str_append_empty (s : String) : s ++ "" = s := by
  apply String.ext
  simp [String.data_append]

theorem str_append_assoc (a b c : String) : a ++ b ++ c = a ++ (b ++ c) := by
  apply String.ext
  simp [String.data_append]

/-! ## Tokenization round trip -/

theorem pushRun_join (c : Char) (ts : List (List Char)) :
    (pushRun c ts).flatten = c :: ts.flatten := by
  match ts with
  | [] => rfl
  | [] :: ts => rfl
  | (d :: t) :: ts =>
    by_cases h : c.isWhitespace = d.isWhitespace <;> simp [pushRun, h]

theorem tokenizeChars_join (cs : List Char) : (tokenizeChars cs).flatten = cs := by
  induction cs with
  | nil => rfl
  | cons c cs ih => simp [tokenizeChars, pushRun_join, ih]

theorem data_sconcat (l : List String) : (sconcat l).data = (l.map String.data).flatten := by
  induction l with
  | nil => rfl
  | cons s l ih => simp [sconcat, String.data_append, ih]

theorem sconcat_tokenizeWords (s : String) : sconcat (tokenizeWords s) = s := by
  apply String.ext
  rw [data_sconcat]
  simp only [tokenizeWords, List.map_map]
  have h : (String.data ∘ fun cs : List Char => (⟨cs⟩ : String)) = id := rfl
  rw [h, List.map_id, tokenizeChars_join]

/-! ## Round trip of the diff runs -/

theorem diffTokensF_keptRemoved :
    ∀ (f : Nat) (l r : List String), l.length + r.length ≤ f →
      keptRemovedText (diffTokensF f l r) = sconcat l := by
  intro f
  induction f with
  | zero =>
    intro l r h
    have hl : l = [] := List.eq_nil_of_length_eq_zero (by omega)
    have hr : r = [] := List.eq_nil_of_length_eq_zero (by omega)
    subst hl; subst hr; rfl
  | succ f ih =>
    intro l r h
    match l, r with
    | [], [] => rfl
    | [], b :: r =>
      simp only [diffTokensF, keptRemovedText]
      rw [ih [] r (by simpa using Nat.le_of_succ_le_succ (by simpa using h))]
      simp [str_empty_append, sconcat]
    | a :: l, [] =>
      simp only [diffTokensF, keptRemovedText]
      rw [ih l [] (by simp at h ⊢; omega)]
      simp [sconcat]
    | a :: l, b :: r =>
      simp only [diffTokensF]
      by_cases hab : a = b
      · simp only [if_pos hab, keptRemovedText]
        rw [ih l r (by simp at h ⊢; omega)]
        simp [sconcat]
      · simp only [if_neg hab]
        by_cases hl : lcsLen f (a :: l) r ≤ lcsLen f l (b :: r)
        · simp only [if_pos hl, keptRemovedText]
          rw [ih l (b :: r) (by simp at h ⊢; omega)]
          simp [sconcat]
        · simp only [if_neg hl, keptRemovedText]
          rw [ih (a :: l) r (by simp at h ⊢; omega)]
          simp [str_empty_append]

theorem diffTokensF_keptInserted :
    ∀ (f : Nat) (l r : List String), l.length + r.length ≤ f →
      keptInsertedText (diffTokensF f l r) = sconcat r := by
  intro f
  induction f with
  | zero =>
    intro l r h
    have hl : l = [] := List.eq_nil_of_length_eq_zero (by omega)
    have hr : r = [] := List.eq_nil_of_length_eq_zero (by omega)
    subst hl; subst hr; rfl
  | succ f ih =>
    intro l r h
    match l, r with
    | [], [] => rfl
    | [], b :: r =>
      simp only [diffTokensF, keptInsertedText]
      rw [ih [] r (by simpa using Nat.le_of_succ_le_succ (by simpa using h))]
      simp [sconcat]
    | a :: l, [] =>
      simp only [diffTokensF, keptInsertedText]
      rw [ih l [] (by simp at h ⊢; omega)]
      simp [str_empty_append, sconcat]
    | a :: l, b :: r =>
      simp only [diffTokensF]
      by_cases hab : a = b
      · simp only [if_pos hab, keptInsertedText]
        rw [ih l r (by simp at h ⊢; omega)]
        simp [sconcat, hab]
      · simp only [if_neg hab]
        by_cases hl : lcsLen f (a :: l) r ≤ lcsLen f l (b :: r)
        · simp only [if_pos hl, keptInsertedText]
          rw [ih l (b :: r) (by simp at h ⊢; omega)]
          simp [str_empty_append]
        · simp only [if_neg hl, keptInsertedText]
          rw [ih (a :: l) r (by simp at h ⊢; omega)]
          simp [sconcat]

theorem mergeParts_keptRemoved (ps : List DiffPart) :
    keptRemovedText (mergeParts ps) = keptRemovedText ps := by
  induction ps with
  | nil => rfl
  | cons p ps ih =>
    simp only [mergeParts]
    cases h : mergeParts ps with
    | nil =>
      rw [h] at ih
      simp only [keptRemovedText] at ih ⊢
      rw [← ih, str_append_empty]
    | cons q qs =>
      rw [h] at ih
      by_cases hk : p.kind = q.kind
      · simp only [if_pos hk, keptRemovedText] at ih ⊢
        rw [← ih, hk]
        by_cases hq : q.kind = DiffKind.inserted
        · simp [hq, str_empty_append]
        · simp [hq, str_append_assoc]
      · simp only [if_neg hk, keptRemovedText] at ih ⊢
        rw [← ih]

theorem mergeParts_keptInserted (ps : List DiffPart) :
    keptInsertedText (mergeParts ps) = keptInsertedText ps := by
  induction ps with
  | nil => rfl
  | cons p ps ih =>
    simp only [mergeParts]
    cases h : mergeParts ps with
    | nil =>
      rw [h] at ih
      simp only [keptInsertedText] at ih ⊢
      rw [← ih, str_append_empty]
    | cons q qs =>
      rw [h] at ih
      by_cases hk : p.kind = q.kind
      · simp only [if_pos hk, keptInsertedText] at ih ⊢
        rw [← ih, hk]
        by_cases hq : q.kind = DiffKind.removed
        · simp [hq, str_empty_append]
        · simp [hq, str_append_assoc]
      · simp only [if_neg hk, keptInsertedText] at ih ⊢
        rw [← ih]

theorem diffWords_keptRemoved (l r : String) :
    keptRemovedText (diffWords l r) = l := by
  rw [diffWords]
  rw [mergeParts_keptRemoved]
  rw [diffTokensF_keptRemoved _ _ _ (Nat.le_refl _)]
  exact sconcat_tokenizeWords l

theorem diffWords_keptInserted (l r : String) :
    keptInsertedText (diffWords l r) = r := by
  rw [diffWords]
  rw [mergeParts_keptInserted]
  rw [diffTokensF_keptInserted _ _ _ (Nat.le_refl _)]
  exact sconcat_tokenizeWords r

/-! ## The `splitDiffs` loop -/

theorem splitDiffs_left (ps : List DiffPart) :
    concatContents ((splitDiffs ps).1.filter fun d =>
      d.type == DiffType.equal || d.type == DiffType.delete) = keptRemovedText ps := by
  induction ps with
  | nil => rfl
  | cons p ps ih =>
    cases hk : p.kind <;>
      simp only [splitDiffs, hk, keptRemovedText, List.filter, concatContents] <;>
      simp [ih, str_empty_append]

theorem splitDiffs_right (ps : List DiffPart) :
    concatContents ((splitDiffs ps).2.1.filter fun d =>
      d.type == DiffType.equal || d.type == DiffType.insert) = keptInsertedText ps := by
  induction ps with
  | nil => rfl
  | cons p ps ih =>
    cases hk : p.kind <;>
      simp only [splitDiffs, hk, keptInsertedText, List.filter, concatContents] <;>
      simp [ih, str_empty_append]

/-! ## Diffing a string against itself -/

theorem diffTokensF_self :
    ∀ (f : Nat) (xs : List String), xs.length ≤ f →
      diffTokensF f xs xs = xs.map fun s => ⟨DiffKind.kept, s⟩ := by
  intro f
  induction f with
  | zero =>
    intro xs h
    have hx : xs = [] := List.eq_nil_of_length_eq_zero (by omega)
    subst hx; rfl
  | succ f ih =>
    intro xs h
    match xs with
    | [] => rfl
    | a :: xs =>
      have ihx := ih xs (by simp at h; omega)
      simp [diffTokensF, ihx]

theorem mergeParts_cons_kept (x : String) (ps : List DiffPart) (v : String)
    (h : mergeParts ps = [⟨DiffKind.kept, v⟩]) :
    mergeParts (⟨DiffKind.kept, x⟩ :: ps) = [⟨DiffKind.kept, x ++ v⟩] := by
  simp only [mergeParts, h]
  simp

theorem mergeParts_keptMap (xs : List String) :
    mergeParts (xs.map fun s => ⟨DiffKind.kept, s⟩) =
      if xs.isEmpty then [] else [⟨DiffKind.kept, sconcat xs⟩] := by
  induction xs with
  | nil => rfl
  | cons x xs ih =>
    cases xs with
    | nil => simp [mergeParts, sconcat, str_append_empty]
    | cons y ys =>
      have ih' : mergeParts (List.map (fun s => (⟨DiffKind.kept, s⟩ : DiffPart)) (y :: ys)) =
          [⟨DiffKind.kept, sconcat (y :: ys)⟩] := by
        simpa using ih
      have h2 := mergeParts_cons_kept x
        (List.map (fun s => (⟨DiffKind.kept, s⟩ : DiffPart)) (y :: ys)) (sconcat (y :: ys)) ih'
      simpa [sconcat] using h2

theorem tokenizeWords_eq_nil {s : String} (h : tokenizeWords s = []) : s = "" := by
  have h1 : tokenizeChars s.data = [] := by
    simpa [tokenizeWords] using h
  have h2 := tokenizeChars_join s.data
  rw [h1] at h2
  simp only [List.flatten_nil] at h2
  exact String.ext h2.symm

theorem diffWords_self (s : String) :
    diffWords s s = if (tokenizeWords s).isEmpty then [] else [⟨DiffKind.kept, s⟩] := by
  simp only [diffWords]
  rw [diffTokensF_self ((tokenizeWords s).length + (tokenizeWords s).length)
    (tokenizeWords s) (by omega)]
  rw [mergeParts_keptMap, sconcat_tokenizeWords]

theorem diffWords_self_kept (s : String) :
    ∀ d ∈ diffWords s s, d.kind = DiffKind.kept := by
  intro d hd
  rw [diffWords_self] at hd
  by_cases h : (tokenizeWords s).isEmpty
  · simp [h] at hd
  · simp [h] at hd
    rw [hd]

/-! # Claim theorems -/

/-- Claim C1: text round-trip of the plain-text entry point: for all strings
L and R, concatenating the content of the `leftDiffs` whose type is `equal`
or `delete` reproduces L exactly, and concatenating the content of the
`rightDiffs` whose type is `equal` or `insert` reproduces R exactly. -/
theorem compareDocuments_text_round_trip (L R : String) :
    concatContents ((compareDocuments L R).leftDiffs.filter fun d =>
      d.type == DiffType.equal || d.type == DiffType.delete) = L ∧
    concatContents ((compareDocuments L R).rightDiffs.filter fun d =>
      d.type == DiffType.equal || d.type == DiffType.insert) = R := by
  constructor
  · exact (splitDiffs_left (diffWords L R)).trans (diffWords_keptRemoved L R)
  · exact (splitDiffs_right (diffWords L R)).trans (diffWords_keptInserted L R)

/-- Claim C3: for every pair of inputs, the summary returned by either entry
point (plain-text `compareDocuments` and HTML `compareHtmlDocuments`)
satisfies `changes = additions + deletions`. -/
theorem summary_changes_eq_additions_plus_deletions (l r : String) :
    (compareDocuments l r).summary.changes =
      (compareDocuments l r).summary.additions + (compareDocuments l r).summary.deletions ∧
    (compareHtmlDocuments l r).summary.changes =
      (compareHtmlDocuments l r).summary.additions +
        (compareHtmlDocuments l r).summary.deletions :=
  ⟨rfl, rfl⟩

/-- Claim C8: for every string S, comparing S against itself with the
plain-text entry point yields a summary of `{0,0,0}`, and both diff
sequences contain only results of type `equal` whose concatenated content
equals S. -/
theorem compareDocuments_idempotent_on_equal_inputs (S : String) :
    (compareDocuments S S).summary = ⟨0, 0, 0⟩ ∧
    (∀ d ∈ (compareDocuments S S).leftDiffs, d.type = DiffType.equal) ∧
    concatContents (compareDocuments S S).leftDiffs = S ∧
    (∀ d ∈ (compareDocuments S S).rightDiffs, d.type = DiffType.equal) ∧
    concatContents (compareDocuments S S).rightDiffs = S := by
  by_cases h : (tokenizeWords S).isEmpty
  · have hS : S = "" := tokenizeWords_eq_nil (by
      cases he : tokenizeWords S with
      | nil => rfl
      | cons t ts => rw [he] at h; simp at h)
    subst hS
    exact ⟨by decide, by decide, by decide, by decide, by decide⟩
  · have hd : diffWords S S = [⟨DiffKind.kept, S⟩] := by
      rw [diffWords_self, if_neg h]
    have hc : compareDocuments S S =
        { leftDiffs := [⟨DiffType.equal, S⟩], rightDiffs := [⟨DiffType.equal, S⟩],
          summary := ⟨0, 0, 0⟩ } := by
      simp only [compareDocuments, hd]
      rfl
    rw [hc]
    refine ⟨rfl, ?_, ?_, ?_, ?_⟩
    · intro d hd'; simp at hd'; rw [hd']
    · simp [concatContents, str_append_empty]
    · intro d hd'; simp at hd'; rw [hd']
    · simp [concatContents, str_append_empty]

/-- Claim C9: for every pair of input markup strings, `compareHtmlDocuments`
returns `leftDiffs` and `rightDiffs` that each consist of exactly one
`DiffResult` of type `equal` whose content is the entire annotated markup of
that side; structural additions and removals are embedded inside that single
result, never surfaced as `insert`/`delete` entries. -/
theorem compareHtmlDocuments_single_equal_result (l r : String) :
    (compareHtmlDocuments l r).leftDiffs = [⟨DiffType.equal, leftAnnotatedHtml l r⟩] ∧
    (compareHtmlDocuments l r).rightDiffs = [⟨DiffType.equal, rightAnnotatedHtml l r⟩] :=
  ⟨rfl, rfl⟩

/-- Claim C7, counterexample to the claim as stated: with both inputs empty,
`compareHtmlDocuments` does not return an empty `leftDiffs` array — it
returns the single `equal` result the entry point always builds. -/
theorem compareHtmlDocuments_empty_leftDiffs_not_nil :
    (compareHtmlDocuments "" "").leftDiffs ≠ [] := by decide

/-- Claim C7, amended: when both input documents are empty strings,
`compareHtmlDocuments` returns a single `equal` diff result with empty
content on each side (not empty arrays) and a summary of `{0,0,0}`, and no
error. -/
theorem compareHtmlDocuments_empty_inputs :
    compareHtmlDocuments "" "" =
      { leftDiffs := [⟨DiffType.equal, ""⟩]
        rightDiffs := [⟨DiffType.equal, ""⟩]
        summary := ⟨0, 0, 0⟩ } := by decide

/-! ## Sibling-list lemmas for the text-extraction pass -/

theorem NodeList.inductionOn (P : NodeList → Prop) (hnil : P .nil)
    (hcons : ∀ n ns, P ns → P (.cons n ns)) : ∀ ns, P ns
  | .nil => hnil
  | .cons n ns => hcons n ns (NodeList.inductionOn P hnil hcons ns)

theorem NodeList.append_assoc (a b c : NodeList) :
    (a.append b).append c = a.append (b.append c) := by
  induction a using NodeList.inductionOn with
  | hnil => rfl
  | hcons n ns ih => simp only [NodeList.append, ih]

theorem removeTagsNodes_append (tags : List String) (ns ms : NodeList) :
    removeTagsNodes tags (ns.append ms) =
      (removeTagsNodes tags ns).append (removeTagsNodes tags ms) := by
  induction ns using NodeList.inductionOn with
  | hnil => rfl
  | hcons n ns ih =>
    simp only [NodeList.append, removeTagsNodes, ih, NodeList.append_assoc]

theorem textContentNodes_append (ns ms : NodeList) :
    textContentNodes (ns.append ms) = textContentNodes ns ++ textContentNodes ms := by
  induction ns using NodeList.inductionOn with
  | hnil => rw [NodeList.append, textContentNodes, str_empty_append]
  | hcons n ns ih =>
    simp only [NodeList.append, textContentNodes, ih, str_append_assoc]

theorem countP_eq_zero_of_kept {ds : List DiffPart} (h : ∀ d ∈ ds, d.kind = DiffKind.kept) :
    (ds.countP fun d => d.kind == DiffKind.inserted) = 0 ∧
    (ds.countP fun d => d.kind == DiffKind.removed) = 0 := by
  constructor <;>
    · rw [List.countP_eq_zero]
      intro d hd
      simp [h d hd]

theorem calcSummary_all_kept (ds : List DiffPart) (le re : AllElements)
    (h : ∀ d ∈ ds, d.kind = DiffKind.kept) :
    calculateComprehensiveSummary ds le re = calculateComprehensiveSummary [] le re := by
  obtain ⟨ha, hr⟩ := countP_eq_zero_of_kept h
  simp only [calculateComprehensiveSummary, ha, hr, List.countP_nil]

/-- Claim C2, counterexample to the claim as stated: the left document's
only header (`<h1>Hello</h1>`) is reported as wholly unmatched against an
empty right document, yet its word also produces a removed word-level run,
so the summary counts it twice: `deletions = 2` (one structural, one
word-level). -/
theorem header_words_double_counted :
    ((extractAllElements "<h1>Hello</h1>").headers.all fun e =>
        !(headerExistsInOther e (extractAllElements "").headers)) = true ∧
    (extractAllElements "<h1>Hello</h1>").headers.length = 1 ∧
    ((diffWords (extractTextFromHtml "<h1>Hello</h1>") (extractTextFromHtml "")).any
        fun d => d.kind == DiffKind.removed) = true ∧
    (compareHtmlDocuments "<h1>Hello</h1>" "").summary.deletions = 2 := by decide

/-- Claim C2, amended: non-duplication holds only for image and table units:
their textual content is removed before the word-level pass (an `img` or
`table` unit anywhere in a document changes nothing about the extracted
text), so a wholly unmatched image or table contributes no word-level run —
a right-side document whose only difference is an extra table yields summary
`{additions:1, deletions:0, changes:1}` with no word-level runs. Units of
the other kinds do contribute word-level runs in addition to the structural
count. -/
theorem img_table_units_excluded_from_text_pass :
    (∀ (pre post : NodeList) (a : List (String × String)) (cs : NodeList),
      (textContentNodes (removeTagsNodes ["img", "table"]
          (pre.append (NodeList.cons (Node.elem "table" a cs) post))) =
        textContentNodes (removeTagsNodes ["img", "table"] (pre.append post))) ∧
      (textContentNodes (removeTagsNodes ["img", "table"]
          (pre.append (NodeList.cons (Node.elem "img" a cs) post))) =
        textContentNodes (removeTagsNodes ["img", "table"] (pre.append post)))) ∧
    (compareHtmlDocuments "<p>Hi</p>"
        "<p>Hi</p><table><tr><td>secret</td></tr></table>").summary = ⟨1, 0, 1⟩ ∧
    ((diffWords (extractTextFromHtml "<p>Hi</p>")
        (extractTextFromHtml "<p>Hi</p><table><tr><td>secret</td></tr></table>")).all
        fun d => d.kind == DiffKind.kept) = true := by
  refine ⟨?_, by decide, by decide⟩
  intro pre post a cs
  constructor <;>
    · rw [removeTagsNodes_append, removeTagsNodes_append, removeTagsNodes]
      simp only [removeTagsNode, List.contains_cons]
      simp [NodeList.append]

/-- Claim C10: the word-level text comparison inside `compareHtmlDocuments`
excludes all text inside `img` and `table` elements: whenever the extracted
texts (with `img` and `table` removed) coincide, the word-level diff contains
no inserted or removed runs and contributes nothing to the summary (which
then equals the summary computed from an empty word-diff). -/
theorem word_diff_excludes_img_table_text (l r : String)
    (h : extractTextFromHtml l = extractTextFromHtml r) :
    ((diffWords (extractTextFromHtml l) (extractTextFromHtml r)).all
        fun d => d.kind == DiffKind.kept) = true ∧
    (compareHtmlDocuments l r).summary =
      calculateComprehensiveSummary [] (extractAllElements l) (extractAllElements r) := by
  constructor
  · rw [h]
    rw [List.all_eq_true]
    intro d hd
    simp [diffWords_self_kept (extractTextFromHtml r) d hd]
  · show calculateComprehensiveSummary
        (diffWords (extractTextFromHtml l) (extractTextFromHtml r))
        (extractAllElements l) (extractAllElements r) = _
    rw [h]
    exact calcSummary_all_kept _ _ _ (diffWords_self_kept _)

/-- Claim C10, witness: text present only inside a table on the right side
(`secret`) yields no inserted or removed word-level runs and a summary equal
to the structural-only summary. -/
theorem word_diff_excludes_img_table_text_witness :
    ((diffWords (extractTextFromHtml "<p>Hi</p>")
        (extractTextFromHtml "<p>Hi</p><table><tr><td>one two three</td></tr></table>")).all
        fun d => d.kind == DiffKind.kept) = true ∧
    (compareHtmlDocuments "<p>Hi</p>"
        "<p>Hi</p><table><tr><td>one two three</td></tr></table>").summary =
      calculateComprehensiveSummary [] (extractAllElements "<p>Hi</p>")
        (extractAllElements "<p>Hi</p><table><tr><td>one two three</td></tr></table>") :=
  word_diff_excludes_img_table_text "<p>Hi</p>"
    "<p>Hi</p><table><tr><td>one two three</td></tr></table>" (by decide)

/-- Claim C4, counterexample to the claim as stated: two images with
different `src`, different markup and empty `alt` satisfy no clause of the
claimed rule (same src, same non-empty alt, or identical markup), yet the
summary counting pass treats them as matched — their empty `alt` texts are
equal — so the summary stays `{0,0,0}` where the claimed rule demands an
addition and a deletion. -/
theorem summary_pass_image_empty_alt_uncounted :
    ((extractAllElements "<img src=\"a.png\">").images.all fun e =>
        (extractAllElements "<img src=\"b.png\">").images.all fun other =>
          !(specImageRule e other)) = true ∧
    (extractAllElements "<img src=\"a.png\">").images.length = 1 ∧
    (compareHtmlDocuments "<img src=\"a.png\">" "<img src=\"b.png\">").summary =
      ⟨0, 0, 0⟩ := by decide

/-- Claim C4, amended: the marking pass matches an image exactly per the
spec's rule (same src, or same non-empty alt, or byte-identical markup); the
summary counting pass instead treats an image as matched iff same src or
same alt text — the alt may be empty and markup identity is not consulted.
An image with identical source URI on both sides is matched by both passes,
hence never reported as added or removed. -/
theorem image_matching_rules_by_pass :
    (∀ (e : ImageInfo) (others : List ImageInfo),
        imageExistsInOther e others = others.any fun other => specImageRule e other) ∧
    (imageMatchesInSummary ⟨0, "a.png", "", "<img src=\"a.png\">", "img-0-a.png"⟩
        ⟨0, "b.png", "", "<img src=\"b.png\">", "img-0-b.png"⟩ = true ∧
      specImageRule ⟨0, "a.png", "", "<img src=\"a.png\">", "img-0-a.png"⟩
        ⟨0, "b.png", "", "<img src=\"b.png\">", "img-0-b.png"⟩ = false) ∧
    (∀ (e other : ImageInfo) (others : List ImageInfo),
        other ∈ others → other.src = e.src →
          imageExistsInOther e others = true ∧
          (others.any fun o => imageMatchesInSummary e o) = true) := by
  refine ⟨fun _ _ => rfl, ⟨by decide, by decide⟩, ?_⟩
  intro e other others hmem hsrc
  constructor
  · exact List.any_eq_true.mpr ⟨other, hmem, by simp [hsrc]⟩
  · exact List.any_eq_true.mpr ⟨other, hmem, by simp [imageMatchesInSummary, hsrc]⟩

theorem localeCompare_natAbs_lt (a b : String) : (localeCompare a b).natAbs < 5 := by
  unfold localeCompare
  split
  · decide
  · split <;> decide

/-- Claim C5, counterexample to the claim as stated: two one-row, one-column
tables with different cell text are matched by the claimed rule (same row
count and same first-row column count) and indeed by the marking pass, but
the summary counting pass compares tables only by byte-identical markup and
counts them as one addition plus one deletion. -/
theorem summary_pass_table_dimension_match_counted :
    ((extractAllElements "<table><tr><td>a</td></tr></table>").tables.all fun e =>
        (extractAllElements "<table><tr><td>b</td></tr></table>").tables.any fun other =>
          specTableRule e other) = true ∧
    ((extractAllElements "<table><tr><td>a</td></tr></table>").tables.all fun e =>
        tableExistsInOther e
          (extractAllElements "<table><tr><td>b</td></tr></table>").tables) = true ∧
    (extractAllElements "<table><tr><td>a</td></tr></table>").tables.length = 1 ∧
    (compareHtmlDocuments "<table><tr><td>a</td></tr></table>"
        "<table><tr><td>b</td></tr></table>").summary = ⟨1, 1, 2⟩ := by decide

/-- Claim C5, amended: the marking pass matches a table exactly per the
spec's rule — its extra `localeCompare` guard is vacuous since
`localeCompare` only returns -1, 0 or 1 — but the summary counting pass
falls into the `default` case and matches tables only by byte-identical
serialized markup, so a dimension-matched table with different content is
not counted as matched there. -/
theorem table_matching_rules_by_pass :
    (∀ (e : TableInfo) (others : List TableInfo),
        tableExistsInOther e others = others.any fun other => specTableRule e other) ∧
    (tableMatchesInSummary
        ⟨0, 1, 1, "<table><tr><td>a</td></tr></table>", "table-0-a"⟩
        ⟨0, 1, 1, "<table><tr><td>b</td></tr></table>", "table-0-b"⟩ = false ∧
      specTableRule
        ⟨0, 1, 1, "<table><tr><td>a</td></tr></table>", "table-0-a"⟩
        ⟨0, 1, 1, "<table><tr><td>b</td></tr></table>", "table-0-b"⟩ = true) := by
  refine ⟨?_, by decide, by decide⟩
  intro e others
  simp only [tableExistsInOther, specTableRule]
  congr 1
  funext other
  simp [localeCompare_natAbs_lt]

/-- Claim C6, counterexample to the claim as stated: the headers
`<h1>a  b</h1>` (two spaces) and `<h1>a b</h1>` have the same level and the
same normalized text, so the claimed rule says matched; the code compares
the raw `textContent` without normalization, finds no match on either side,
and the summary is `{additions:1, deletions:1, changes:2}` where the claimed
rule demands `{0,0,0}`. -/
theorem header_matching_uses_raw_text :
    ((extractAllElements "<h1>a  b</h1>").headers.all fun e =>
        (extractAllElements "<h1>a b</h1>").headers.any fun other =>
          specHeaderRule e other) = true ∧
    (extractAllElements "<h1>a  b</h1>").headers.length = 1 ∧
    (compareHtmlDocuments "<h1>a  b</h1>" "<h1>a b</h1>").summary = ⟨1, 1, 2⟩ := by decide

/-- Claim C6, amended: a header unit is matched iff some header on the other
side has the same heading level and the same raw text (`textContent`, with
no whitespace normalization) — both in the marking pass and in the summary
pass; comparing `<h1>Title</h1>` against `<h2>Title</h2>` yields summary
`{additions:1, deletions:1, changes:2}` even though the text is identical. -/
theorem header_matching_rules_and_level_example :
    (∀ (e : HeaderInfo) (others : List HeaderInfo),
        headerExistsInOther e others =
          others.any fun other => other.text == e.text && other.level == e.level) ∧
    (∀ (e other : HeaderInfo),
        headerMatchesInSummary e other = (other.text == e.text && other.level == e.level)) ∧
    (compareHtmlDocuments "<h1>Title</h1>" "<h2>Title</h2>").summary = ⟨1, 1, 2⟩ :=
  ⟨fun _ _ => rfl, fun _ _ => rfl, by decide⟩

end DocCompare
